import Mathlib

/-!
# dioprobe: a direct-I/O latency probe

A shallow embedding of `main.go`.  The program is a sequence of calls into the
operating system and the Go libraries (file open/write/read/close/remove, the
clock, two random sources).  Those calls are taken as the fields of a record
`Sys σ` of state-passing functions over an arbitrary world state `σ`; the
repository's own functions `write`, `read`, `measure` and `Collect` are
translated statement by statement on top of it.  A `defer` is translated as
"run the body, then run the deferred call on the state the body left, keeping
the body's result".
-/

namespace Dioprobe

/-! ## Data -/

/-- A byte slice. -/
abbrev Block := List UInt8

/-- A Go `error` value.  `sys` is an error made by the operating system or a
library, `errorf` one made by `fmt.Errorf` with the given text. -/
inductive Error where
  | sys (msg : String)
  | errorf (msg : String)
  deriving DecidableEq, Repr

/-- A file handle, `*os.File`. -/
abbrev Fd := Nat

/-- The flags `write` and `read` pass to `directio.OpenFile`. -/
inductive Flag where
  | O_RDONLY
  | O_RDWR
  | O_CREATE
  | O_TRUNC
  deriving DecidableEq, Repr

/-- A reading of the monotonic clock in nanoseconds, as `time.Now` takes it. -/
abbrev Time := Int

/-- The type `time.Duration`: a signed 64-bit count of nanoseconds. -/
abbrev Duration := Int

/-- The largest `time.Duration`, `1<<63 - 1`. -/
def maxDuration : Int := 2 ^ 63 - 1

/-- The smallest `time.Duration`, `-1 << 63`. -/
def minDuration : Int := -(2 ^ 63)

/-- Two's-complement reduction of an integer to the `int64` range. -/
def wrap64 (x : Int) : Int := (x + 2 ^ 63) % 2 ^ 64 - 2 ^ 63

/-- `time.Time.Sub` on two monotonic readings (the library's `subMono`): the
`int64` difference, saturated at the ends of the `Duration` range. -/
def Sub (t u : Int) : Int :=
  let d := wrap64 (t - u)
  if d < 0 ∧ t > u then maxDuration
  else if d > 0 ∧ t < u then minDuration
  else d

/-- The calls `main.go` makes into the operating system and the libraries, as
state-passing functions over a world state `σ`.  A call that fills a buffer
takes the buffer and returns its new contents beside the call's results. -/
structure Sys (σ : Type) where
  /-- The constant `directio.BlockSize`. -/
  BlockSize : Nat
  /-- The call `mrand.Int()`: a non-negative integer. -/
  mrandInt : σ → Nat × σ
  /-- The call `rand.Read(b)` of crypto/rand: new contents, count, error.
  (From Go 1.24 on the library always fills the whole slice and returns no
  error; a failing random source ends the process inside the call.) -/
  randRead : Block → σ → (Block × Int × Option Error) × σ
  /-- The call `time.Now()`. -/
  now : σ → Time × σ
  /-- The call `directio.OpenFile(name, flag, perm)`. -/
  OpenFile : String → List Flag → Nat → σ → Except Error Fd × σ
  /-- The call `fd.Write(b)`: count, error. -/
  fdWrite : Fd → Block → σ → (Int × Option Error) × σ
  /-- The call `fd.Read(b)`: new contents of `b`, count, error. -/
  fdRead : Fd → Block → σ → (Block × Int × Option Error) × σ
  /-- The call `fd.Close()`. -/
  fdClose : Fd → σ → Option Error × σ
  /-- The call `os.Remove(name)`. -/
  Remove : String → σ → Option Error × σ
  /-- The call `slog.Error(msg, "error", err)`. -/
  slogError : String → Error → σ → σ

/-- The call `directio.AlignedBlock(n)`: a fresh zeroed slice of `n` bytes
(its alignment is a matter of memory layout and is not modelled). -/
def AlignedBlock (n : Nat) : Block := List.replicate n 0

/-- The call `bytes.Equal(a, b)`. -/
def bytesEqual (a b : Block) : Bool := decide (a = b)

/-! ## Formatting and paths -/

/-- The decimal digit `d` as a character. -/
def digitChar (d : Nat) : Char := Char.ofNat (48 + d)

/-- The decimal digits of `n`, most significant first; `fuel` bounds the
number of digits produced. -/
def decimalAux : Nat → Nat → List Char
  | 0, _ => []
  | fuel + 1, n =>
    if n < 10 then [digitChar n]
    else decimalAux fuel (n / 10) ++ [digitChar (n % 10)]

/-- The decimal digits of a natural number. -/
def decimal (n : Nat) : List Char := decimalAux (n + 1) n

/-- The verb `%d` of package fmt applied to an `int`. -/
def fmtInt (n : Int) : String :=
  if n < 0 then String.mk ('-' :: decimal n.natAbs) else String.mk (decimal n.natAbs)

/-- The predicate `os.IsPathSeparator` on a Unix system. -/
def isSep (c : Char) : Bool := c == '/'

/-- The lookahead test `r+k == n || os.IsPathSeparator(path[r+k])` of
`filepath.Clean`, on the input left from position `r+k`. -/
def endOrSep : List Char → Bool
  | [] => true
  | c :: _ => isSep c

/-- The inner loop of the `..` case of `filepath.Clean`, which lowers `out.w`
while `out.w > dotdot && !os.IsPathSeparator(out.index(out.w))`. -/
def backtrackLoop (out : List Char) (dotdot : Nat) : Nat → Nat
  | 0 => 0
  | w + 1 =>
    if w + 1 > dotdot ∧ !isSep (out.getD (w + 1) '/') then backtrackLoop out dotdot w
    else w + 1

/-- The step "add slash if needed" before `filepath.Clean` copies a real path
element: `if rooted && out.w != 1 || !rooted && out.w != 0` it appends the
separator. -/
def addSlashIfNeeded (rooted : Bool) (out : List Char) : List Char :=
  if (rooted && out.length != 1) || (!rooted && out.length != 0) then out ++ ['/'] else out

/-- The main loop `for r < n` of `filepath.Clean`: `path` is the input from
position `r` on, `out` the bytes written so far (`out.w` is its length).  Each
round consumes at least one byte of input, and `fuel` bounds the rounds. -/
def cleanLoop (rooted : Bool) : Nat → List Char → List Char → Nat → List Char
  | 0, _, out, _ => out
  | _ + 1, [], out, _ => out
  | fuel + 1, c :: rest, out, dotdot =>
    if isSep c then
      cleanLoop rooted fuel rest out dotdot
    else if c == '.' && endOrSep rest then
      cleanLoop rooted fuel rest out dotdot
    else if c == '.' && (rest.head? == some '.' && endOrSep (rest.drop 1)) then
      if out.length > dotdot then
        let w := backtrackLoop out dotdot (out.length - 1)
        cleanLoop rooted fuel (rest.drop 1) (out.take w) dotdot
      else if !rooted then
        let out1 := if out.length > 0 then out ++ ['/'] else out
        let out2 := out1 ++ ['.', '.']
        cleanLoop rooted fuel (rest.drop 1) out2 out2.length
      else
        cleanLoop rooted fuel (rest.drop 1) out dotdot
    else
      let out1 := addSlashIfNeeded rooted out
      let elem := (c :: rest).takeWhile (fun x => !isSep x)
      cleanLoop rooted fuel ((c :: rest).dropWhile (fun x => !isSep x)) (out1 ++ elem) dotdot

/-- The function `filepath.Clean` on a Unix system (no volume names, the
separator is a slash).  The library works on bytes; slash and dot are ASCII,
so working on characters gives the same result. -/
def Clean (path : String) : String :=
  match path.data with
  | [] => "."
  | c :: rest =>
    let rooted := isSep c
    let out :=
      if rooted then cleanLoop rooted (rest.length + 1) rest ['/'] 1
      else cleanLoop rooted (rest.length + 2) (c :: rest) [] 0
    if out.length = 0 then "." else String.mk out

/-- The call `filepath.Join(a, b)`: the elements from the first non-empty one
on, joined by the separator and cleaned. -/
def Join (a b : String) : String :=
  if a ≠ "" then Clean (a ++ "/" ++ b)
  else if b ≠ "" then Clean b
  else ""

/-- The call `fmt.Sprintf("file%d.dat", n)`. -/
def tempName (n : Nat) : String := "file" ++ fmtInt (n : Int) ++ ".dat"

/-- The number a list of decimal digits denotes. -/
def parseDecimal (l : List Char) : Nat :=
  l.foldl (fun acc c => acc * 10 + (c.toNat - 48)) 0

/-- A plain path element: not empty, without a separator, and not starting
with a dot. -/
def plainName (name : List Char) : Prop :=
  ∃ c rest, name = c :: rest ∧ isSep c = false ∧ (c == '.') = false ∧
    ∀ x ∈ rest, isSep x = false

/-! ## The helpers `write` and `read` -/

/-- The part of `write` that runs with the handle open, before the deferred
`fd.Close()`. -/
def writeBody {σ : Type} (sys : Sys σ) (fd : Fd) (block : Block) (s : σ) :
    Option Error × σ :=
  match sys.fdWrite fd block s with
  | ((_, some err), s1) => (some err, s1)
  | ((n, none), s1) =>
    if n ≠ (block.length : Int) then
      (some (Error.errorf ("short write: " ++ fmtInt n)), s1)
    else
      sys.fdClose fd s1

/-- The function `write(file, block)`. -/
def write {σ : Type} (sys : Sys σ) (file : String) (block : Block) (s : σ) :
    Option Error × σ :=
  match sys.OpenFile file [Flag.O_RDWR, Flag.O_CREATE, Flag.O_TRUNC] 0o666 s with
  | (Except.error err, s1) => (some err, s1)
  | (Except.ok fd, s1) =>
    let r := writeBody sys fd block s1
    (r.1, (sys.fdClose fd r.2).2)

/-- The part of `read` that runs with the handle open, before the deferred
`fd.Close()`. -/
def readBody {σ : Type} (sys : Sys σ) (fd : Fd) (data : Block) (s : σ) :
    Option Error × σ :=
  let block := AlignedBlock sys.BlockSize
  match sys.fdRead fd block s with
  | ((_, _, some err), s1) => (some err, s1)
  | ((got, n, none), s1) =>
    if n ≠ (block.length : Int) then
      (some (Error.errorf ("short read: " ++ fmtInt n)), s1)
    else if !bytesEqual got data then
      (some (Error.errorf "data mismatch"), s1)
    else
      (none, s1)

/-- The function `read(file, data)`. -/
def read {σ : Type} (sys : Sys σ) (file : String) (data : Block) (s : σ) :
    Option Error × σ :=
  match sys.OpenFile file [Flag.O_RDONLY] 0 s with
  | (Except.error err, s1) => (some err, s1)
  | (Except.ok fd, s1) =>
    let r := readBody sys fd data s1
    (r.1, (sys.fdClose fd r.2).2)

/-! ## The measurement -/

/-- The receiver type `dioprobe`. -/
structure dioprobe where
  dir : String
  deriving DecidableEq, Repr

/-- The body of `measure` after the temp file is named and its removal
deferred: fill the block, write it, read it back, timing both. -/
def measureBody {σ : Type} (sys : Sys σ) (file : String) (s : σ) :
    (Duration × Duration × Option Error) × σ :=
  let block := AlignedBlock sys.BlockSize
  let f := sys.randRead block s
  let block := f.1.1
  let (t0, s1) := sys.now f.2
  match write sys file block s1 with
  | (some err, s2) => ((0, 0, some err), s2)
  | (none, s2) =>
    let (t1, s3) := sys.now s2
    match read sys file block s3 with
    | (some err, s4) => ((0, 0, some err), s4)
    | (none, s4) =>
      let (t2, s5) := sys.now s4
      ((Sub t2 t1, Sub t1 t0, none), s5)

/-- The path of the temp file `measure` uses when `mrand.Int()` returns `n`. -/
def tempFile (d : dioprobe) (n : Nat) : String := Join d.dir (tempName n)

/-- The method `(*dioprobe).measure`: the results `(rd, wwd, err)` and the
world it leaves. -/
def measure {σ : Type} (sys : Sys σ) (d : dioprobe) (s : σ) :
    (Duration × Duration × Option Error) × σ :=
  let (n, s0) := sys.mrandInt s
  let file := tempFile d n
  let r := measureBody sys file s0
  (r.1, (sys.Remove file r.2).2)

/-! ## The collector -/

/-- A metric descriptor, `prometheus.Desc`: name, help text, label names. -/
structure Desc where
  fqName : String
  help : String
  variableLabels : List String
  deriving DecidableEq, Repr

/-- The value types of a constant metric. -/
inductive ValueType where
  | CounterValue
  | GaugeValue
  | UntypedValue
  deriving DecidableEq, Repr

/-- A constant metric as `prometheus.NewConstMetric` builds it. -/
structure Metric where
  desc : Desc
  valType : ValueType
  val : ℚ
  labelValues : List String
  deriving DecidableEq

/-- The package variable `rwDesc`. -/
def rwDesc : Desc := ⟨"dioprobe_block_duration_seconds", "", ["op"]⟩

/-- The method `time.Duration.Seconds`, as an exact rational number: whole
seconds plus the remaining nanoseconds over `1e9`.  (The library returns the
`float64` nearest to this; the rounding is not modelled.) -/
def Seconds (d : Duration) : ℚ :=
  ((Int.tdiv d 1000000000 : Int) : ℚ) + ((Int.tmod d 1000000000 : Int) : ℚ) / 1000000000

/-- The call `prometheus.MustNewConstMetric`: it panics (`none`) when the
number of label values is not the number of the descriptor's labels. -/
def MustNewConstMetric (desc : Desc) (valType : ValueType) (value : ℚ)
    (labelValues : List String) : Option Metric :=
  if labelValues.length ≠ desc.variableLabels.length then none
  else some ⟨desc, valType, value, labelValues⟩

/-- The method `(*dioprobe).Collect`.  The channel is the list of metrics
sent so far, a send appends to it; the result is `none` when a call panics. -/
def Collect {σ : Type} (sys : Sys σ) (d : dioprobe) (ch : List Metric) (s : σ) :
    Option (List Metric) × σ :=
  let m := measure sys d s
  let rd := m.1.1
  let wwd := m.1.2.1
  let s1 :=
    match m.1.2.2 with
    | some err => sys.slogError "measure" err m.2
    | none => m.2
  match MustNewConstMetric rwDesc ValueType.GaugeValue (Seconds rd) ["read"] with
  | none => (none, s1)
  | some m1 =>
    let ch1 := ch ++ [m1]
    match MustNewConstMetric rwDesc ValueType.GaugeValue (Seconds wwd) ["write"] with
    | none => (none, s1)
    | some m2 => (some (ch1 ++ [m2]), s1)

/-! ## A simulated system

A small concrete instance of `Sys`, used to run the program on explicit
inputs: an in-memory file table, a table of open handles, a scripted clock and
switches that make single calls fail. -/

/-- The world of the simulated system. -/
structure SimState where
  /-- The files that exist, with their contents. -/
  files : List (String × Block)
  /-- The open handles, with the path each was opened on. -/
  opened : List (Fd × String)
  /-- The next handle to hand out. -/
  nextFd : Fd
  /-- The clock readings still to come. -/
  clock : List Time
  /-- The number `mrand.Int()` returns. -/
  seed : Nat
  /-- The bytes `rand.Read` fills the block with. -/
  fill : Block
  /-- When set, the count a write reports instead of the full length. -/
  shortWrite : Option Int
  /-- When set, the bytes and count a read delivers instead of the contents. -/
  readOverride : Option (Block × Int)
  /-- The error the first close of an open handle reports. -/
  closeErr : Option Error
  /-- When set, `os.Remove` fails with this error and removes nothing. -/
  removeErr : Option Error
  /-- The lines logged. -/
  log : List (String × Error)
  deriving DecidableEq

/-- Whether a file exists in the simulated world. -/
def SimState.fileExists (s : SimState) (name : String) : Bool :=
  s.files.any (fun f => f.1 == name)

/-- Whether a handle is open in the simulated world. -/
def SimState.isOpen (s : SimState) (fd : Fd) : Bool :=
  s.opened.any (fun o => o.1 == fd)

/-- The simulated `directio.OpenFile`. -/
def simOpenFile (name : String) (flags : List Flag) (_perm : Nat) (s : SimState) :
    Except Error Fd × SimState :=
  if Flag.O_CREATE ∈ flags then
    (Except.ok s.nextFd,
      { s with files := (name, []) :: s.files.filter (fun f => f.1 != name),
               opened := (s.nextFd, name) :: s.opened, nextFd := s.nextFd + 1 })
  else if s.fileExists name then
    (Except.ok s.nextFd,
      { s with opened := (s.nextFd, name) :: s.opened, nextFd := s.nextFd + 1 })
  else
    (Except.error (Error.sys "no such file or directory"), s)

/-- The simulated `fd.Write`. -/
def simWrite (fd : Fd) (b : Block) (s : SimState) : (Int × Option Error) × SimState :=
  match s.opened.lookup fd with
  | none => ((0, some (Error.sys "file already closed")), s)
  | some name =>
    match s.shortWrite with
    | some n => ((n, none), s)
    | none =>
      (((b.length : Int), none),
        { s with files := (name, b) :: s.files.filter (fun f => f.1 != name) })

/-- The simulated `fd.Read`. -/
def simRead (fd : Fd) (b : Block) (s : SimState) :
    (Block × Int × Option Error) × SimState :=
  match s.opened.lookup fd with
  | none => ((b, 0, some (Error.sys "file already closed")), s)
  | some name =>
    match s.readOverride with
    | some (got, n) => ((got, n, none), s)
    | none =>
      match s.files.lookup name with
      | none => ((b, 0, some (Error.sys "no such file or directory")), s)
      | some c => ((c, (c.length : Int), none), s)

/-- The simulated `fd.Close`: the handle is released whatever is reported. -/
def simClose (fd : Fd) (s : SimState) : Option Error × SimState :=
  if s.isOpen fd then
    (s.closeErr, { s with opened := s.opened.filter (fun o => o.1 != fd) })
  else
    (some (Error.sys "file already closed"), s)

/-- The simulated `os.Remove`. -/
def simRemove (name : String) (s : SimState) : Option Error × SimState :=
  match s.removeErr with
  | some e => (some e, s)
  | none =>
    if s.fileExists name then
      (none, { s with files := s.files.filter (fun f => f.1 != name) })
    else
      (some (Error.sys "no such file or directory"), s)

/-- The simulated clock: the next scripted reading. -/
def simNow (s : SimState) : Time × SimState :=
  match s.clock with
  | [] => (0, s)
  | t :: ts => (t, { s with clock := ts })

/-- The simulated system, with block size `bs`. -/
def simSys (bs : Nat) : Sys SimState where
  BlockSize := bs
  mrandInt := fun s => (s.seed, s)
  randRead := fun _ s => ((s.fill, (s.fill.length : Int), none), s)
  now := simNow
  OpenFile := simOpenFile
  fdWrite := simWrite
  fdRead := simRead
  fdClose := simClose
  Remove := simRemove
  slogError := fun msg err s => { s with log := s.log ++ [(msg, err)] }

/-- A healthy simulated world: an empty directory, clock readings 100, 130
and 170, random number 7 and a four-byte random fill. -/
def sim0 : SimState where
  files := []
  opened := []
  nextFd := 3
  clock := [100, 130, 170]
  seed := 7
  fill := [9, 8, 7, 6]
  shortWrite := none
  readOverride := none
  closeErr := none
  removeErr := none
  log := []

/-- The probe on the directory `/var/run`. -/
def probe0 : dioprobe := ⟨"/var/run"⟩

/-- The healthy world, except that the target directory is append-only: files
can be created, written and read in it, but `os.Remove` fails. -/
def simRemoveFails : SimState :=
  { sim0 with removeErr := some (Error.sys "operation not permitted") }

/-- The healthy world, except that the read delivers a full block of other
bytes than were written. -/
def simCorrupt : SimState :=
  { sim0 with readOverride := some ([9, 8, 7, 0], 4) }

/-- The healthy world, except that the read delivers three bytes of four. -/
def simShortRead : SimState :=
  { sim0 with readOverride := some ([9, 8, 7, 0], 3) }

/-- The healthy world, except that the write reports two bytes of four. -/
def simShortWrite : SimState :=
  { sim0 with shortWrite := some 2 }

/-- The healthy world, except that closing a handle reports an error. -/
def simCloseFails : SimState :=
  { sim0 with closeErr := some (Error.sys "input/output error") }

/-- The system `sys` with the count and the error of `rand.Read` replaced by
a full count and no error; the bytes it fills in and its effect on the world
are kept. -/
def ignoreFillResult {σ : Type} (sys : Sys σ) : Sys σ :=
  { sys with
      randRead := fun b s => (((sys.randRead b s).1.1, (b.length : Int), none),
        (sys.randRead b s).2) }

/-! ## Durations -/

theorem maxDuration_eq : maxDuration = 9223372036854775807 := by
  norm_num [maxDuration]

theorem minDuration_eq : minDuration = -9223372036854775808 := by
  norm_num [minDuration]

theorem wrap64_eq (x : Int) :
    wrap64 x = (x + 9223372036854775808) % 18446744073709551616 - 9223372036854775808 := by
  norm_num [wrap64]

theorem wrap64_range (x : Int) : minDuration ≤ wrap64 x ∧ wrap64 x ≤ maxDuration := by
  rw [wrap64_eq, maxDuration_eq, minDuration_eq]
  omega

theorem Sub_range (t u : Int) : minDuration ≤ Sub t u ∧ Sub t u ≤ maxDuration := by
  have h := wrap64_range (t - u)
  unfold Sub
  simp only
  split_ifs
  · exact ⟨by decide, le_refl _⟩
  · exact ⟨le_refl _, by decide⟩
  · exact h

theorem Sub_exact (t u : Int) (h1 : minDuration ≤ t - u) (h2 : t - u ≤ maxDuration) :
    Sub t u = t - u := by
  rw [minDuration_eq] at h1
  rw [maxDuration_eq] at h2
  have hw : wrap64 (t - u) = t - u := by
    rw [wrap64_eq]
    omega
  unfold Sub
  simp only [hw]
  split_ifs with a b
  · omega
  · omega
  · rfl

theorem Sub_nonneg (t u : Int) (h : u ≤ t) : 0 ≤ Sub t u := by
  have hw : wrap64 (t - u) = (t - u + 9223372036854775808) % 18446744073709551616
      - 9223372036854775808 := wrap64_eq _
  unfold Sub
  simp only
  split_ifs with a b
  · decide
  · omega
  · omega

/-! ## The paths through `measure` -/

/-- The method `measure` is its body followed by the deferred removal. -/
theorem measure_unfold {σ : Type} (sys : Sys σ) (d : dioprobe) (s s0 : σ) (n : Nat)
    (h0 : sys.mrandInt s = (n, s0)) :
    measure sys d s =
      ((measureBody sys (tempFile d n) s0).1,
        (sys.Remove (tempFile d n) (measureBody sys (tempFile d n) s0).2).2) := by
  simp [measure, h0]

/-- The body of `measure` when the write helper fails. -/
theorem measureBody_write_err {σ : Type} (sys : Sys σ) (file : String) (s0 s1 s2 s3 : σ)
    (B : Block) (k : Int) (fe : Option Error) (t0 : Time) (e : Error)
    (h1 : sys.randRead (AlignedBlock sys.BlockSize) s0 = ((B, k, fe), s1))
    (h2 : sys.now s1 = (t0, s2))
    (h3 : write sys file B s2 = (some e, s3)) :
    measureBody sys file s0 = ((0, 0, some e), s3) := by
  simp [measureBody, h1, h2, h3]

/-- The body of `measure` when the write helper succeeds and the read helper
fails. -/
theorem measureBody_read_err {σ : Type} (sys : Sys σ) (file : String)
    (s0 s1 s2 s3 s4 s5 : σ) (B : Block) (k : Int) (fe : Option Error) (t0 t1 : Time)
    (e : Error)
    (h1 : sys.randRead (AlignedBlock sys.BlockSize) s0 = ((B, k, fe), s1))
    (h2 : sys.now s1 = (t0, s2))
    (h3 : write sys file B s2 = (none, s3))
    (h4 : sys.now s3 = (t1, s4))
    (h5 : read sys file B s4 = (some e, s5)) :
    measureBody sys file s0 = ((0, 0, some e), s5) := by
  simp [measureBody, h1, h2, h3, h4, h5]

/-- The body of `measure` when both helpers succeed. -/
theorem measureBody_ok {σ : Type} (sys : Sys σ) (file : String)
    (s0 s1 s2 s3 s4 s5 s6 : σ) (B : Block) (k : Int) (fe : Option Error) (t0 t1 t2 : Time)
    (h1 : sys.randRead (AlignedBlock sys.BlockSize) s0 = ((B, k, fe), s1))
    (h2 : sys.now s1 = (t0, s2))
    (h3 : write sys file B s2 = (none, s3))
    (h4 : sys.now s3 = (t1, s4))
    (h5 : read sys file B s4 = (none, s5))
    (h6 : sys.now s5 = (t2, s6)) :
    measureBody sys file s0 = ((Sub t2 t1, Sub t1 t0, none), s6) := by
  simp [measureBody, h1, h2, h3, h4, h5, h6]

/-! ## Error propagation and durations -/

/-- C3: when the write helper or the read helper fails with error `e`,
`measure` returns exactly `(0, 0, e)`: both durations are zero, also when the
write phase had completed and been timed, and the error is the helper's own.
The hypotheses `h0`, `h1`, `h2` only name the random number, the filled block
and the first clock reading. -/
theorem measure_helper_error {σ : Type} (sys : Sys σ) (d : dioprobe) (s s0 s1 s2 : σ)
    (n : Nat) (B : Block) (k : Int) (fe : Option Error) (t0 : Time) (e : Error)
    (h0 : sys.mrandInt s = (n, s0))
    (h1 : sys.randRead (AlignedBlock sys.BlockSize) s0 = ((B, k, fe), s1))
    (h2 : sys.now s1 = (t0, s2)) :
    ((write sys (tempFile d n) B s2).1 = some e → (measure sys d s).1 = (0, 0, some e)) ∧
    ((write sys (tempFile d n) B s2).1 = none →
      (read sys (tempFile d n) B (sys.now (write sys (tempFile d n) B s2).2).2).1 = some e →
      (measure sys d s).1 = (0, 0, some e)) := by
  rw [measure_unfold sys d s s0 n h0]
  constructor
  · intro hw
    have h3 : write sys (tempFile d n) B s2 = (some e, (write sys (tempFile d n) B s2).2) :=
      Prod.ext hw rfl
    rw [measureBody_write_err sys _ s0 s1 s2 _ B k fe t0 e h1 h2 h3]
  · intro hw hr
    have h3 : write sys (tempFile d n) B s2 = (none, (write sys (tempFile d n) B s2).2) :=
      Prod.ext hw rfl
    have h5 : read sys (tempFile d n) B (sys.now (write sys (tempFile d n) B s2).2).2 =
        (some e, (read sys (tempFile d n) B (sys.now (write sys (tempFile d n) B s2).2).2).2) :=
      Prod.ext hr rfl
    rw [measureBody_read_err sys _ s0 s1 s2 _ _ _ B k fe t0 _ e h1 h2 h3 rfl h5]

/-- A successful `measure` is one in which both helpers returned no error. -/
theorem measure_success_helpers {σ : Type} (sys : Sys σ) (d : dioprobe)
    (s s0 s1 s2 s3 s4 s5 : σ) (n : Nat) (B : Block) (k : Int) (fe : Option Error)
    (t0 t1 : Time) (we re : Option Error)
    (h0 : sys.mrandInt s = (n, s0))
    (h1 : sys.randRead (AlignedBlock sys.BlockSize) s0 = ((B, k, fe), s1))
    (h2 : sys.now s1 = (t0, s2))
    (h3 : write sys (tempFile d n) B s2 = (we, s3))
    (h4 : sys.now s3 = (t1, s4))
    (h5 : read sys (tempFile d n) B s4 = (re, s5))
    (hsucc : (measure sys d s).1.2.2 = none) :
    we = none ∧ re = none := by
  rw [measure_unfold sys d s s0 n h0] at hsucc
  cases we with
  | some e =>
    rw [measureBody_write_err sys _ s0 s1 s2 s3 B k fe t0 e h1 h2 h3] at hsucc
    simp at hsucc
  | none =>
    cases re with
    | some e =>
      rw [measureBody_read_err sys _ s0 s1 s2 s3 s4 s5 B k fe t0 t1 e h1 h2 h3 h4 h5] at hsucc
      simp at hsucc
    | none => exact ⟨rfl, rfl⟩

/-- C4: in a successful `measure`, with `t0` the clock reading before the
write, `t1` the one between write and read and `t2` the one after the read,
the result is `(t2.Sub(t1), t1.Sub(t0), nil)`: read duration first, write
duration second; and each `Sub` is the exact difference of the readings
whenever that difference is a `Duration`. -/
theorem measure_success_durations {σ : Type} (sys : Sys σ) (d : dioprobe)
    (s s0 s1 s2 s3 s4 s5 s6 : σ) (n : Nat) (B : Block) (k : Int) (fe : Option Error)
    (t0 t1 t2 : Time) (we re : Option Error)
    (h0 : sys.mrandInt s = (n, s0))
    (h1 : sys.randRead (AlignedBlock sys.BlockSize) s0 = ((B, k, fe), s1))
    (h2 : sys.now s1 = (t0, s2))
    (h3 : write sys (tempFile d n) B s2 = (we, s3))
    (h4 : sys.now s3 = (t1, s4))
    (h5 : read sys (tempFile d n) B s4 = (re, s5))
    (h6 : sys.now s5 = (t2, s6))
    (hsucc : (measure sys d s).1.2.2 = none) :
    (measure sys d s).1 = (Sub t2 t1, Sub t1 t0, none) ∧
    (minDuration ≤ t1 - t0 → t1 - t0 ≤ maxDuration → (measure sys d s).1.2.1 = t1 - t0) ∧
    (minDuration ≤ t2 - t1 → t2 - t1 ≤ maxDuration → (measure sys d s).1.1 = t2 - t1) := by
  obtain ⟨hw, hr⟩ :=
    measure_success_helpers sys d s s0 s1 s2 s3 s4 s5 n B k fe t0 t1 we re h0 h1 h2 h3 h4 h5 hsucc
  subst hw
  subst hr
  have hm : (measure sys d s).1 = (Sub t2 t1, Sub t1 t0, none) := by
    rw [measure_unfold sys d s s0 n h0,
      measureBody_ok sys _ s0 s1 s2 s3 s4 s5 s6 B k fe t0 t1 t2 h1 h2 h3 h4 h5 h6]
  refine ⟨hm, ?_, ?_⟩
  · intro a b
    rw [hm]
    exact Sub_exact t1 t0 a b
  · intro a b
    rw [hm]
    exact Sub_exact t2 t1 a b

/-- C6: in a successful `measure` whose three clock readings are
non-decreasing, the write duration and the read duration are both at least
zero, and both are finite: at most the largest `Duration`. -/
theorem measure_durations_nonneg {σ : Type} (sys : Sys σ) (d : dioprobe)
    (s s0 s1 s2 s3 s4 s5 s6 : σ) (n : Nat) (B : Block) (k : Int) (fe : Option Error)
    (t0 t1 t2 : Time) (we re : Option Error)
    (h0 : sys.mrandInt s = (n, s0))
    (h1 : sys.randRead (AlignedBlock sys.BlockSize) s0 = ((B, k, fe), s1))
    (h2 : sys.now s1 = (t0, s2))
    (h3 : write sys (tempFile d n) B s2 = (we, s3))
    (h4 : sys.now s3 = (t1, s4))
    (h5 : read sys (tempFile d n) B s4 = (re, s5))
    (h6 : sys.now s5 = (t2, s6))
    (hsucc : (measure sys d s).1.2.2 = none)
    (h01 : t0 ≤ t1) (h12 : t1 ≤ t2) :
    (0 ≤ (measure sys d s).1.2.1 ∧ (measure sys d s).1.2.1 ≤ maxDuration) ∧
    (0 ≤ (measure sys d s).1.1 ∧ (measure sys d s).1.1 ≤ maxDuration) := by
  obtain ⟨hw, hr⟩ :=
    measure_success_helpers sys d s s0 s1 s2 s3 s4 s5 n B k fe t0 t1 we re h0 h1 h2 h3 h4 h5 hsucc
  subst hw
  subst hr
  rw [measure_unfold sys d s s0 n h0,
    measureBody_ok sys _ s0 s1 s2 s3 s4 s5 s6 B k fe t0 t1 t2 h1 h2 h3 h4 h5 h6]
  exact ⟨⟨Sub_nonneg t1 t0 h01, (Sub_range t1 t0).2⟩, ⟨Sub_nonneg t2 t1 h12, (Sub_range t2 t1).2⟩⟩

/-! ## The helpers -/

theorem AlignedBlock_length (n : Nat) : (AlignedBlock n).length = n := by
  simp [AlignedBlock]

/-- What `write` returns once the file is open. -/
theorem write_of_open {σ : Type} (sys : Sys σ) (file : String) (block : Block) (s s1 : σ)
    (fd : Fd)
    (ho : sys.OpenFile file [Flag.O_RDWR, Flag.O_CREATE, Flag.O_TRUNC] 0o666 s =
      (Except.ok fd, s1)) :
    write sys file block s =
      ((writeBody sys fd block s1).1, (sys.fdClose fd (writeBody sys fd block s1).2).2) := by
  simp [write, ho]

/-- What `read` returns once the file is open. -/
theorem read_of_open {σ : Type} (sys : Sys σ) (file : String) (data : Block) (s s1 : σ)
    (fd : Fd)
    (ho : sys.OpenFile file [Flag.O_RDONLY] 0 s = (Except.ok fd, s1)) :
    read sys file data s =
      ((readBody sys fd data s1).1, (sys.fdClose fd (readBody sys fd data s1).2).2) := by
  simp [read, ho]

/-- The result of `read` when the handle delivers a full block without error:
success when the bytes equal the data, a data-mismatch error otherwise. -/
theorem readBody_full {σ : Type} (sys : Sys σ) (fd : Fd) (data got : Block) (s1 s2 : σ)
    (hr : sys.fdRead fd (AlignedBlock sys.BlockSize) s1 =
      ((got, (sys.BlockSize : Int), none), s2)) :
    (readBody sys fd data s1).1 =
      if got = data then none else some (Error.errorf "data mismatch") := by
  simp only [readBody, hr, AlignedBlock_length, bytesEqual]
  by_cases h : got = data <;> simp [h]

/-- A successful `read` opened the file, got a full block without error, and
the block equals the data. -/
theorem read_success {σ : Type} (sys : Sys σ) (file : String) (data : Block) (s : σ)
    (h : (read sys file data s).1 = none) :
    ∃ fd s1 got s2, sys.OpenFile file [Flag.O_RDONLY] 0 s = (Except.ok fd, s1) ∧
      sys.fdRead fd (AlignedBlock sys.BlockSize) s1 = ((got, (sys.BlockSize : Int), none), s2) ∧
      got = data := by
  rcases ho : sys.OpenFile file [Flag.O_RDONLY] 0 s with ⟨o, s1⟩
  cases o with
  | error err => simp [read, ho] at h
  | ok fd =>
    rw [read_of_open sys file data s s1 fd ho] at h
    rcases hr : sys.fdRead fd (AlignedBlock sys.BlockSize) s1 with ⟨⟨got, n, e⟩, s2⟩
    cases e with
    | some err => simp [readBody, hr] at h
    | none =>
      by_cases hn : n = (sys.BlockSize : Int)
      · subst hn
        rw [readBody_full sys fd data got s1 s2 hr] at h
        by_cases hg : got = data
        · exact ⟨fd, s1, got, s2, rfl, hr, hg⟩
        · simp [hg] at h
      · simp [readBody, hr, AlignedBlock_length, hn] at h

/-- C7: a partial transfer is never a success.  If the underlying write
reports `n` bytes and no error with `n` not the block length, `write` returns
a short-write error; if the underlying read reports `n` bytes and no error
with `n` not the block size, `read` returns a short-read error, whatever
bytes `got` the buffer holds and whatever `data` it would be compared with. -/
theorem short_transfer_is_error {σ : Type} (sys : Sys σ) (file : String)
    (block data got : Block) (s s1 s2 : σ) (fd : Fd) (n : Int) :
    (sys.OpenFile file [Flag.O_RDWR, Flag.O_CREATE, Flag.O_TRUNC] 0o666 s = (Except.ok fd, s1) →
      sys.fdWrite fd block s1 = ((n, none), s2) → n ≠ (block.length : Int) →
      (write sys file block s).1 = some (Error.errorf ("short write: " ++ fmtInt n))) ∧
    (sys.OpenFile file [Flag.O_RDONLY] 0 s = (Except.ok fd, s1) →
      sys.fdRead fd (AlignedBlock sys.BlockSize) s1 = ((got, n, none), s2) →
      n ≠ (sys.BlockSize : Int) →
      (read sys file data s).1 = some (Error.errorf ("short read: " ++ fmtInt n))) := by
  constructor
  · intro ho hw hn
    rw [write_of_open sys file block s s1 fd ho]
    simp [writeBody, hw, hn]
  · intro ho hr hn
    rw [read_of_open sys file data s s1 fd ho]
    simp [readBody, hr, AlignedBlock_length, hn]

/-- C1: round-trip fidelity.  With `B` the block `measure` wrote, a
successful `measure` is one whose read opened the file and got a full block
`got` without error with `got = B`; and whenever the read delivers a full
block (the count is the block size, no error) whose bytes differ from `B`,
`read` returns the data-mismatch error and `measure` returns
`(0, 0, data mismatch)`.  The
hypotheses `h0` to `h4` only name the values of the calls before the read. -/
theorem round_trip_fidelity {σ : Type} (sys : Sys σ) (d : dioprobe)
    (s s0 s1 s2 s3 s4 : σ) (n : Nat) (B : Block) (k : Int) (fe : Option Error)
    (t0 t1 : Time) (we : Option Error)
    (h0 : sys.mrandInt s = (n, s0))
    (h1 : sys.randRead (AlignedBlock sys.BlockSize) s0 = ((B, k, fe), s1))
    (h2 : sys.now s1 = (t0, s2))
    (h3 : write sys (tempFile d n) B s2 = (we, s3))
    (h4 : sys.now s3 = (t1, s4)) :
    ((measure sys d s).1.2.2 = none →
      ∃ fd s5 got s6, sys.OpenFile (tempFile d n) [Flag.O_RDONLY] 0 s4 = (Except.ok fd, s5) ∧
        sys.fdRead fd (AlignedBlock sys.BlockSize) s5 =
          ((got, (sys.BlockSize : Int), none), s6) ∧
        got = B) ∧
    (∀ fd s5 got s6,
      sys.OpenFile (tempFile d n) [Flag.O_RDONLY] 0 s4 = (Except.ok fd, s5) →
      sys.fdRead fd (AlignedBlock sys.BlockSize) s5 = ((got, (sys.BlockSize : Int), none), s6) →
      got ≠ B →
      (read sys (tempFile d n) B s4).1 = some (Error.errorf "data mismatch") ∧
      (we = none → (measure sys d s).1 = (0, 0, some (Error.errorf "data mismatch")))) := by
  constructor
  · intro hsucc
    have hh := measure_success_helpers sys d s s0 s1 s2 s3 s4 _ n B k fe t0 t1 we _
      h0 h1 h2 h3 h4 rfl hsucc
    exact read_success sys (tempFile d n) B s4 hh.2
  · intro fd s5 got s6 ho hr hne
    have hread : (read sys (tempFile d n) B s4).1 = some (Error.errorf "data mismatch") := by
      rw [read_of_open sys _ B s4 s5 fd ho, readBody_full sys fd B got s5 s6 hr]
      simp [hne]
    refine ⟨hread, ?_⟩
    intro hwe
    subst hwe
    rw [measure_unfold sys d s s0 n h0,
      measureBody_read_err sys _ s0 s1 s2 s3 s4 _ B k fe t0 t1 _ h1 h2 h3 h4
        (Prod.ext hread rfl)]

/-! ## The collector -/

/-- A failed `measure` returns zero for both durations. -/
theorem measure_fail_zero {σ : Type} (sys : Sys σ) (d : dioprobe) (s : σ)
    (h : (measure sys d s).1.2.2 ≠ none) :
    (measure sys d s).1.1 = 0 ∧ (measure sys d s).1.2.1 = 0 := by
  rcases h0 : sys.mrandInt s with ⟨n, s0⟩
  rcases h1 : sys.randRead (AlignedBlock sys.BlockSize) s0 with ⟨⟨B, k, fe⟩, s1⟩
  rcases h2 : sys.now s1 with ⟨t0, s2⟩
  rcases h3 : write sys (tempFile d n) B s2 with ⟨we, s3⟩
  rcases h4 : sys.now s3 with ⟨t1, s4⟩
  rcases h5 : read sys (tempFile d n) B s4 with ⟨re, s5⟩
  rcases h6 : sys.now s5 with ⟨t2, s6⟩
  rw [measure_unfold sys d s s0 n h0] at h ⊢
  cases we with
  | some e =>
    rw [measureBody_write_err sys _ s0 s1 s2 s3 B k fe t0 e h1 h2 h3]
    exact ⟨rfl, rfl⟩
  | none =>
    cases re with
    | some e =>
      rw [measureBody_read_err sys _ s0 s1 s2 s3 s4 s5 B k fe t0 t1 e h1 h2 h3 h4 h5]
      exact ⟨rfl, rfl⟩
    | none =>
      rw [measureBody_ok sys _ s0 s1 s2 s3 s4 s5 s6 B k fe t0 t1 t2 h1 h2 h3 h4 h5 h6] at h
      simp at h

/-- A duration in seconds is its nanoseconds over `1e9`. -/
theorem Seconds_eq (x : Duration) : Seconds x = (x : ℚ) / 1000000000 := by
  have h := Int.tmod_add_tdiv x 1000000000
  have h2 : (x : ℚ) = ((Int.tmod x 1000000000 : Int) : ℚ) +
      1000000000 * ((Int.tdiv x 1000000000 : Int) : ℚ) := by
    exact_mod_cast h.symm
  unfold Seconds
  rw [h2]
  field_simp
  ring

/-- C5: the collector never fails the scrape.  Whatever `measure` returns,
`Collect` does not panic and sends exactly two gauge samples after what the
channel held: first the one labelled `read`, then the one labelled `write`,
valued at the returned read and write durations in seconds (the nanoseconds
over `1e9`); and when `measure` fails both values are 0. -/
theorem Collect_emits_two_gauges {σ : Type} (sys : Sys σ) (d : dioprobe) (ch : List Metric)
    (s : σ) :
    (Collect sys d ch s).1 =
      some (ch ++
        [⟨rwDesc, ValueType.GaugeValue, Seconds (measure sys d s).1.1, ["read"]⟩,
         ⟨rwDesc, ValueType.GaugeValue, Seconds (measure sys d s).1.2.1, ["write"]⟩]) ∧
    ((measure sys d s).1.2.2 ≠ none →
      Seconds (measure sys d s).1.1 = 0 ∧ Seconds (measure sys d s).1.2.1 = 0) ∧
    (Seconds (measure sys d s).1.1 = ((measure sys d s).1.1 : ℚ) / 1000000000 ∧
      Seconds (measure sys d s).1.2.1 = ((measure sys d s).1.2.1 : ℚ) / 1000000000) := by
  refine ⟨?_, ?_, Seconds_eq _, Seconds_eq _⟩
  · simp [Collect, MustNewConstMetric, rwDesc]
  · intro h
    obtain ⟨a, b⟩ := measure_fail_zero sys d s h
    rw [a, b]
    simp [Seconds]

/-! ## Cleanup -/

/-- C9: the handle is closed on every exit path of the helpers.  For any
property `closed` of a handle that a call of `Close` establishes whatever it
reports, a `write` or `read` that opened handle `fd` returns in a world where
`closed fd` holds, whatever the underlying write, read and close calls
returned; and a `write` whose transfer was complete returns what its final
`Close` returned. -/
theorem helpers_close_handle {σ : Type} (sys : Sys σ) (closed : Fd → σ → Prop)
    (hclose : ∀ fd s, closed fd (sys.fdClose fd s).2)
    (file : String) (block data : Block) (s s1 : σ) (fd : Fd) :
    (sys.OpenFile file [Flag.O_RDWR, Flag.O_CREATE, Flag.O_TRUNC] 0o666 s = (Except.ok fd, s1) →
      closed fd (write sys file block s).2 ∧
      (∀ s2, sys.fdWrite fd block s1 = (((block.length : Int), none), s2) →
        (write sys file block s).1 = (sys.fdClose fd s2).1)) ∧
    (sys.OpenFile file [Flag.O_RDONLY] 0 s = (Except.ok fd, s1) →
      closed fd (read sys file data s).2) := by
  constructor
  · intro ho
    rw [write_of_open sys file block s s1 fd ho]
    refine ⟨hclose _ _, ?_⟩
    intro s2 hw
    simp [writeBody, hw]
  · intro ho
    rw [read_of_open sys file data s s1 fd ho]
    exact hclose _ _

/-- C2 (as amended): on every exit path the last thing `measure` does is to
call `os.Remove` on the temp file of this invocation, and it discards what
the call reports.  So for any property `absent` of a path that a successful
`os.Remove` establishes and that no `os.Remove` destroys, the temp file is
absent after `measure` returns whenever that removal reported no error or the
file was absent when the removal was attempted. -/
theorem measure_removes_temp_file {σ : Type} (sys : Sys σ) (absent : String → σ → Prop)
    (hrm : ∀ name s, (sys.Remove name s).1 = none → absent name (sys.Remove name s).2)
    (hkeep : ∀ name s, absent name s → absent name (sys.Remove name s).2)
    (d : dioprobe) (s s0 : σ) (n : Nat)
    (h0 : sys.mrandInt s = (n, s0)) :
    (measure sys d s).1 = (measureBody sys (tempFile d n) s0).1 ∧
    (measure sys d s).2 = (sys.Remove (tempFile d n) (measureBody sys (tempFile d n) s0).2).2 ∧
    ((sys.Remove (tempFile d n) (measureBody sys (tempFile d n) s0).2).1 = none ∨
        absent (tempFile d n) (measureBody sys (tempFile d n) s0).2 →
      absent (tempFile d n) (measure sys d s).2) := by
  rw [measure_unfold sys d s s0 n h0]
  refine ⟨rfl, rfl, fun h => ?_⟩
  rcases h with h | h
  · exact hrm _ _ h
  · exact hkeep _ _ h

/-- C2 fails as stated: in the world `simRemoveFails` the measurement
succeeds, the removal fails, and the temp file still exists after `measure`
has returned. -/
theorem temp_file_left_behind :
    (measure (simSys 4) probe0 simRemoveFails).1 = (40, 30, none) ∧
    (measure (simSys 4) probe0 simRemoveFails).2.fileExists (tempFile probe0 7) = true := by
  decide

/-- The statement `_, _ = rand.Read(block)`: `measure` uses neither the count
nor the error the random fill returns, only the bytes it leaves in the block. -/
theorem measure_discards_fill_result {σ : Type} (sys : Sys σ) (d : dioprobe) (s : σ) :
    measure (ignoreFillResult sys) d s = measure sys d s := rfl

/-! ## The temp file name -/

theorem digitChar_toNat (d : Nat) (h : d < 10) : (digitChar d).toNat - 48 = d := by
  interval_cases d <;> rfl

theorem digitChar_not_sep (d : Nat) (h : d < 10) : isSep (digitChar d) = false := by
  interval_cases d <;> rfl

theorem parseDecimal_snoc (l : List Char) (c : Char) :
    parseDecimal (l ++ [c]) = parseDecimal l * 10 + (c.toNat - 48) := by
  simp [parseDecimal]

theorem parseDecimal_decimalAux : ∀ (fuel n : Nat), n < fuel →
    parseDecimal (decimalAux fuel n) = n := by
  intro fuel
  induction fuel with
  | zero => intro n h; omega
  | succ f ih =>
    intro n h
    unfold decimalAux
    split_ifs with h10
    · simp [parseDecimal, digitChar_toNat n h10]
    · rw [parseDecimal_snoc, ih (n / 10) (by omega), digitChar_toNat _ (Nat.mod_lt _ (by norm_num))]
      omega

theorem decimal_injective (n m : Nat) (h : decimal n = decimal m) : n = m := by
  have a := parseDecimal_decimalAux (n + 1) n (Nat.lt_succ_self n)
  have b := parseDecimal_decimalAux (m + 1) m (Nat.lt_succ_self m)
  unfold decimal at h
  rw [h] at a
  omega

theorem decimalAux_not_sep : ∀ (fuel n : Nat), ∀ x ∈ decimalAux fuel n, isSep x = false := by
  intro fuel
  induction fuel with
  | zero => intro n x hx; simp [decimalAux] at hx
  | succ f ih =>
    intro n x hx
    unfold decimalAux at hx
    split_ifs at hx with h10
    · simp at hx
      subst hx
      exact digitChar_not_sep n h10
    · simp at hx
      rcases hx with hx | hx
      · exact ih _ x hx
      · subst hx
        exact digitChar_not_sep _ (Nat.mod_lt _ (by norm_num))

theorem tempName_data (n : Nat) :
    (tempName n).data = 'f' :: (['i', 'l', 'e'] ++ decimal n ++ ['.', 'd', 'a', 't']) := by
  have hn : ¬ ((n : Int) < 0) := by omega
  simp [tempName, fmtInt, hn]

theorem tempName_plain (n : Nat) : plainName (tempName n).data := by
  refine ⟨'f', ['i', 'l', 'e'] ++ decimal n ++ ['.', 'd', 'a', 't'], tempName_data n, rfl, rfl, ?_⟩
  intro x hx
  simp at hx
  rcases hx with hx | hx | hx | hx | hx | hx | hx | hx
  · subst hx; rfl
  · subst hx; rfl
  · subst hx; rfl
  · exact decimalAux_not_sep _ _ x hx
  · subst hx; rfl
  · subst hx; rfl
  · subst hx; rfl
  · subst hx; rfl

theorem tempName_injective (n m : Nat) (h : (tempName n).data = (tempName m).data) : n = m := by
  rw [tempName_data, tempName_data] at h
  simp at h
  exact decimal_injective n m h

theorem cleanLoop_nil (rooted : Bool) (fuel : Nat) (out : List Char) (dotdot : Nat) :
    cleanLoop rooted fuel [] out dotdot = out := by
  cases fuel <;> rfl

theorem takeWhile_append_sep (l r : List Char) :
    (l ++ '/' :: r).takeWhile (fun x => !isSep x) = l.takeWhile (fun x => !isSep x) := by
  induction l with
  | nil => simp [isSep]
  | cons a l ih =>
    by_cases h : isSep a = true
    · simp [List.takeWhile, h]
    · simp [List.takeWhile, h, ih]

theorem dropWhile_append_sep (l r : List Char) :
    (l ++ '/' :: r).dropWhile (fun x => !isSep x) =
      l.dropWhile (fun x => !isSep x) ++ '/' :: r := by
  induction l with
  | nil => simp [isSep]
  | cons a l ih =>
    by_cases h : isSep a = true
    · simp [List.dropWhile, h]
    · simp [List.dropWhile, h, ih]

theorem takeWhile_no_sep (l : List Char) (h : ∀ x ∈ l, isSep x = false) :
    l.takeWhile (fun x => !isSep x) = l := by
  rw [List.takeWhile_eq_self_iff]
  intro x hx
  simp [h x hx]

theorem dropWhile_no_sep (l : List Char) (h : ∀ x ∈ l, isSep x = false) :
    l.dropWhile (fun x => !isSep x) = [] := by
  rw [List.dropWhile_eq_nil_iff]
  intro x hx
  simp [h x hx]

theorem dropWhile_length_le (l : List Char) :
    (l.dropWhile (fun x => !isSep x)).length ≤ l.length := by
  induction l with
  | nil => simp
  | cons a l ih =>
    by_cases h : isSep a = true
    · simp [List.dropWhile, h]
    · simp [List.dropWhile, h]
      omega

/-- On a plain name the loop of `Clean` copies the name after what it has
written, with a separator between where one is needed. -/
theorem cleanLoop_plain (rooted : Bool) (fuel : Nat) (name out : List Char) (dotdot : Nat)
    (hp : plainName name) :
    cleanLoop rooted (fuel + 1) name out dotdot = addSlashIfNeeded rooted out ++ name := by
  obtain ⟨c, rest, rfl, hc, hd, hrest⟩ := hp
  have hall : ∀ x ∈ c :: rest, isSep x = false := by
    intro x hx
    rcases List.mem_cons.mp hx with h | h
    · rw [h]; exact hc
    · exact hrest x h
  rw [cleanLoop]
  simp only [hc, hd, Bool.false_and, Bool.false_eq_true, if_false]
  rw [takeWhile_no_sep _ hall, dropWhile_no_sep _ hall, cleanLoop_nil]

theorem endOrSep_append (l r : List Char) :
    endOrSep (l ++ '/' :: r) = endOrSep (l ++ ['/']) := by
  cases l <;> rfl

theorem endOrSep_cons (x : Char) (l : List Char) : endOrSep (x :: l) = isSep x := rfl

/-- One round of the loop of `Clean` on an input that continues with a
separator: which case applies does not depend on what follows the separator. -/
theorem cleanLoop_step (rooted : Bool) (fuel : Nat) (c : Char) (rest r out : List Char)
    (dotdot : Nat) :
    cleanLoop rooted (fuel + 1) (c :: (rest ++ '/' :: r)) out dotdot =
      if isSep c then
        cleanLoop rooted fuel (rest ++ '/' :: r) out dotdot
      else if c == '.' && endOrSep (rest ++ ['/']) then
        cleanLoop rooted fuel (rest ++ '/' :: r) out dotdot
      else if c == '.' && (rest.head? == some '.' && endOrSep (rest.drop 1 ++ ['/'])) then
        if out.length > dotdot then
          cleanLoop rooted fuel (rest.drop 1 ++ '/' :: r)
            (out.take (backtrackLoop out dotdot (out.length - 1))) dotdot
        else if !rooted then
          cleanLoop rooted fuel (rest.drop 1 ++ '/' :: r)
            ((if out.length > 0 then out ++ ['/'] else out) ++ ['.', '.'])
            ((if out.length > 0 then out ++ ['/'] else out) ++ ['.', '.']).length
        else
          cleanLoop rooted fuel (rest.drop 1 ++ '/' :: r) out dotdot
      else
        cleanLoop rooted fuel ((c :: rest).dropWhile (fun x => !isSep x) ++ '/' :: r)
          (addSlashIfNeeded rooted out ++ (c :: rest).takeWhile (fun x => !isSep x)) dotdot := by
  rw [cleanLoop]
  have ht := takeWhile_append_sep (c :: rest) r
  have hd := dropWhile_append_sep (c :: rest) r
  rw [List.cons_append] at ht hd
  rw [ht, hd]
  cases rest with
  | nil => simp [endOrSep, isSep]
  | cons x rest2 => simp [endOrSep_cons, endOrSep_append rest2 r]

/-- The loop of `Clean` on an input `p`, a separator and a plain name: the
result is the name after a text `X` that depends on `p` and on what the loop
had written, not on the name. -/
theorem cleanLoop_append_plain (rooted : Bool) :
    ∀ (k : Nat) (p : List Char), p.length ≤ k → ∀ (out : List Char) (dotdot : Nat),
      ∃ X : List Char, ∀ name, plainName name → ∀ fuel, (p ++ '/' :: name).length < fuel →
        cleanLoop rooted fuel (p ++ '/' :: name) out dotdot = X ++ name := by
  have base : ∀ (out : List Char) (dotdot : Nat),
      ∃ X : List Char, ∀ name, plainName name → ∀ fuel, (([] : List Char) ++ '/' :: name).length < fuel →
        cleanLoop rooted fuel ([] ++ '/' :: name) out dotdot = X ++ name := by
    intro out dotdot
    refine ⟨addSlashIfNeeded rooted out, fun name hn fuel hf => ?_⟩
    simp only [List.nil_append, List.length_cons] at hf ⊢
    obtain ⟨f, rfl⟩ : ∃ f, fuel = f + 2 := ⟨fuel - 2, by omega⟩
    rw [cleanLoop]
    simp only [isSep, beq_self_eq_true, if_true]
    exact cleanLoop_plain rooted f name out dotdot hn
  intro k
  induction k with
  | zero =>
    intro p hp out dotdot
    have : p = [] := List.length_eq_zero.mp (Nat.le_zero.mp hp)
    subst this
    exact base out dotdot
  | succ k ih =>
    intro p hp out dotdot
    cases p with
    | nil => exact base out dotdot
    | cons c rest =>
      have hrest : rest.length ≤ k := by simpa using hp
      -- the continuation of a round, once the input left is known
      have cont : ∀ (q : List Char), q.length ≤ rest.length → ∀ (out1 : List Char) (dd : Nat),
          (∀ name fuel, cleanLoop rooted (fuel + 1) (c :: (rest ++ '/' :: name)) out dotdot =
            cleanLoop rooted fuel (q ++ '/' :: name) out1 dd) →
          ∃ X : List Char, ∀ name, plainName name → ∀ fuel,
            ((c :: rest) ++ '/' :: name).length < fuel →
            cleanLoop rooted fuel ((c :: rest) ++ '/' :: name) out dotdot = X ++ name := by
        intro q hq out1 dd hstep
        obtain ⟨X, hX⟩ := ih q (le_trans hq hrest) out1 dd
        refine ⟨X, fun name hn fuel hf => ?_⟩
        simp only [List.cons_append, List.length_cons, List.length_append] at hf
        obtain ⟨f, rfl⟩ : ∃ f, fuel = f + 1 := ⟨fuel - 1, by omega⟩
        rw [List.cons_append, hstep name f]
        apply hX name hn f
        simp only [List.length_cons, List.length_append]
        omega
      by_cases h1 : isSep c = true
      · exact cont rest (le_refl _) out dotdot (fun name fuel => by
          rw [cleanLoop_step, if_pos h1])
      by_cases h2 : (c == '.' && endOrSep (rest ++ ['/'])) = true
      · exact cont rest (le_refl _) out dotdot (fun name fuel => by
          rw [cleanLoop_step, if_neg h1, if_pos h2])
      by_cases h3 : (c == '.' && (rest.head? == some '.' && endOrSep (rest.drop 1 ++ ['/']))) = true
      · have hq : (rest.drop 1).length ≤ rest.length := by
          simp only [List.length_drop]
          omega
        by_cases h4 : out.length > dotdot
        · exact cont (rest.drop 1) hq _ dotdot (fun name fuel => by
            rw [cleanLoop_step, if_neg h1, if_neg h2, if_pos h3, if_pos h4])
        by_cases h5 : (!rooted) = true
        · exact cont (rest.drop 1) hq _ _ (fun name fuel => by
            rw [cleanLoop_step, if_neg h1, if_neg h2, if_pos h3, if_neg h4, if_pos h5])
        · exact cont (rest.drop 1) hq out dotdot (fun name fuel => by
            rw [cleanLoop_step, if_neg h1, if_neg h2, if_pos h3, if_neg h4, if_neg h5])
      · have hq : ((c :: rest).dropWhile (fun x => !isSep x)).length ≤ rest.length := by
          have hc : isSep c = false := by simpa using h1
          simp only [List.dropWhile, hc, Bool.not_false]
          exact dropWhile_length_le rest
        exact cont _ hq _ dotdot (fun name fuel => by
          rw [cleanLoop_step, if_neg h1, if_neg h2, if_neg h3])

theorem Clean_cons (path : String) (c : Char) (rest : List Char) (h : path.data = c :: rest) :
    Clean path =
      if (if isSep c then cleanLoop (isSep c) (rest.length + 1) rest ['/'] 1
          else cleanLoop (isSep c) (rest.length + 2) (c :: rest) [] 0).length = 0 then "."
      else String.mk (if isSep c then cleanLoop (isSep c) (rest.length + 1) rest ['/'] 1
          else cleanLoop (isSep c) (rest.length + 2) (c :: rest) [] 0) := by
  simp only [Clean, h]

/-- Joining a directory and a plain name gives the name after a text that
depends on the directory alone. -/
theorem Join_plain (d : String) :
    ∃ X : List Char, ∀ name : String, plainName name.data →
      Join d name = String.mk (X ++ name.data) := by
  by_cases hd : d = ""
  · subst hd
    refine ⟨[], fun name hn => ?_⟩
    obtain ⟨c, rest, hdata, hc, hdot, hrest⟩ := id hn
    have hne : name ≠ "" := by
      intro h
      rw [h] at hdata
      simp at hdata
    have hloop := cleanLoop_plain false (rest.length + 1) name.data [] 0 hn
    rw [hdata] at hloop
    simp only [Join, ne_eq, not_true_eq_false, if_false, hne, not_false_eq_true, if_true]
    rw [Clean_cons name c rest hdata]
    simp only [hc, Bool.false_eq_true, if_false, hloop]
    simp [addSlashIfNeeded, hdata]
  · obtain ⟨c, rest, hdata⟩ : ∃ c rest, d.data = c :: rest := by
      cases hdd : d.data with
      | nil =>
        exfalso
        apply hd
        cases d
        simp_all
      | cons c rest => exact ⟨c, rest, rfl⟩
    by_cases hroot : isSep c = true
    · obtain ⟨X, hX⟩ := cleanLoop_append_plain true rest.length rest (le_refl _) ['/'] 1
      refine ⟨X, fun name hn => ?_⟩
      obtain ⟨c1, rest1, hdata1, -⟩ := id hn
      have hpath : (d ++ "/" ++ name).data = c :: (rest ++ '/' :: name.data) := by
        simp [hdata]
      have hloop := hX name.data hn ((rest ++ '/' :: name.data).length + 1) (Nat.lt_succ_self _)
      simp only [Join, ne_eq, hd, not_false_eq_true, if_true]
      rw [Clean_cons _ c _ hpath]
      simp only [hroot, if_true, hloop]
      simp [hdata1]
    · have hroot2 : isSep c = false := by simpa using hroot
      obtain ⟨X, hX⟩ := cleanLoop_append_plain false (c :: rest).length (c :: rest) (le_refl _) [] 0
      refine ⟨X, fun name hn => ?_⟩
      obtain ⟨c1, rest1, hdata1, -⟩ := id hn
      have hpath : (d ++ "/" ++ name).data = c :: (rest ++ '/' :: name.data) := by
        simp [hdata]
      have hloop := hX name.data hn ((rest ++ '/' :: name.data).length + 2)
        (by simp only [List.cons_append, List.length_cons]; omega)
      rw [List.cons_append] at hloop
      simp only [Join, ne_eq, hd, not_false_eq_true, if_true]
      rw [Clean_cons _ c _ hpath]
      simp only [hroot2, Bool.false_eq_true, if_false, hloop]
      simp [hdata1]

/-- C10: the temp file name is unique per random suffix.  For every target
directory and every two distinct numbers `n` and `m` drawn as the suffix, the
paths `Join(dir, "file<n>.dat")` and `Join(dir, "file<m>.dat")` differ. -/
theorem tempFile_injective (d : dioprobe) (n m : Nat) (h : n ≠ m) :
    tempFile d n ≠ tempFile d m := by
  intro heq
  obtain ⟨X, hX⟩ := Join_plain d.dir
  rw [tempFile, tempFile, hX _ (tempName_plain n), hX _ (tempName_plain m)] at heq
  have hdata : X ++ (tempName n).data = X ++ (tempName m).data :=
    congrArg String.data heq
  exact h (tempName_injective n m (List.append_cancel_left hdata))

/-- For the probe on `/var/run` the suffixes 1 and 2 give different paths. -/
theorem tempFile_injective_witness : tempFile probe0 1 ≠ tempFile probe0 2 :=
  tempFile_injective probe0 1 2 (by decide)



/-! ## Runs of the simulated system -/

/-- In the simulated system a close releases the handle, whatever it reports. -/
theorem simClose_closes (fd : Fd) (s : SimState) : (simClose fd s).2.isOpen fd = false := by
  unfold simClose
  by_cases h : s.isOpen fd = true
  · rw [if_pos h]
    simp [SimState.isOpen, List.any_eq_false]
  · rw [if_neg h]
    simpa using h

/-- In the simulated system a removal that reports no error leaves no file. -/
theorem simRemove_absent (name : String) (s : SimState)
    (h : (simRemove name s).1 = none) : (simRemove name s).2.fileExists name = false := by
  unfold simRemove at h ⊢
  cases hr : s.removeErr with
  | some e => simp [hr] at h
  | none =>
    by_cases hf : s.fileExists name = true
    · simp only [hr, if_pos hf]
      simp [SimState.fileExists, List.any_eq_false]
    · simp [hr, hf] at h

/-- A short write and a short read each make `measure` return `(0, 0, e)`. -/
theorem measure_helper_error_witness :
    (measure (simSys 4) probe0 simShortWrite).1 =
      (0, 0, some (Error.errorf "short write: 2")) ∧
    (measure (simSys 4) probe0 simShortRead).1 =
      (0, 0, some (Error.errorf "short read: 3")) :=
  ⟨(measure_helper_error (simSys 4) probe0 simShortWrite _ _ _ 7 [9, 8, 7, 6] 4 none 100
      (Error.errorf "short write: 2") rfl rfl rfl).1 (by decide),
   (measure_helper_error (simSys 4) probe0 simShortRead _ _ _ 7 [9, 8, 7, 6] 4 none 100
      (Error.errorf "short read: 3") rfl rfl rfl).2 (by decide) (by decide)⟩

/-- The healthy run returns the read duration 40 and the write duration 30. -/
theorem measure_success_durations_witness :
    (measure (simSys 4) probe0 sim0).1 = (Sub 170 130, Sub 130 100, none) ∧
    (measure (simSys 4) probe0 sim0).1.2.1 = 130 - 100 ∧
    (measure (simSys 4) probe0 sim0).1.1 = 170 - 130 :=
  have h := measure_success_durations (simSys 4) probe0 sim0 _ _ _ _ _ _ _ 7 [9, 8, 7, 6] 4 none
    100 130 170 none none rfl rfl rfl rfl rfl rfl rfl (by decide)
  ⟨h.1, h.2.1 (by norm_num [minDuration]) (by norm_num [maxDuration]),
    h.2.2 (by norm_num [minDuration]) (by norm_num [maxDuration])⟩

/-- The healthy run has non-negative, finite durations. -/
theorem measure_durations_nonneg_witness :
    (0 ≤ (measure (simSys 4) probe0 sim0).1.2.1 ∧
      (measure (simSys 4) probe0 sim0).1.2.1 ≤ maxDuration) ∧
    (0 ≤ (measure (simSys 4) probe0 sim0).1.1 ∧
      (measure (simSys 4) probe0 sim0).1.1 ≤ maxDuration) :=
  measure_durations_nonneg (simSys 4) probe0 sim0 _ _ _ _ _ _ _ 7 [9, 8, 7, 6] 4 none
    100 130 170 none none rfl rfl rfl rfl rfl rfl rfl (by decide) (by decide) (by decide)

/-- A read that delivers four bytes other than the four written makes
`measure` return the data-mismatch error; the healthy run read back the
block it wrote. -/
theorem round_trip_fidelity_witness :
    (measure (simSys 4) probe0 simCorrupt).1 = (0, 0, some (Error.errorf "data mismatch")) ∧
    (∃ fd s5 got s6,
      (simSys 4).OpenFile (tempFile probe0 7) [Flag.O_RDONLY] 0
          ((simSys 4).now (write (simSys 4) (tempFile probe0 7) [9, 8, 7, 6]
            ((simSys 4).now sim0).2).2).2 = (Except.ok fd, s5) ∧
        (simSys 4).fdRead fd (AlignedBlock (simSys 4).BlockSize) s5 =
          ((got, ((simSys 4).BlockSize : Int), none), s6) ∧
        got = [9, 8, 7, 6]) :=
  ⟨((round_trip_fidelity (simSys 4) probe0 simCorrupt _ _ _ _ _ 7 [9, 8, 7, 6] 4 none 100 130
      none rfl rfl rfl rfl rfl).2 4 _ [9, 8, 7, 0] _ rfl rfl (by decide)).2 rfl,
   (round_trip_fidelity (simSys 4) probe0 sim0 _ _ _ _ _ 7 [9, 8, 7, 6] 4 none 100 130
      none rfl rfl rfl rfl rfl).1 (by decide)⟩

/-- A write that reports two bytes of four and a read that reports three
bytes of four are both errors. -/
theorem short_transfer_is_error_witness :
    (write (simSys 4) "/var/run/file7.dat" [9, 8, 7, 6] simShortWrite).1 =
      some (Error.errorf "short write: 2") ∧
    (read (simSys 4) "/var/run/file7.dat" [9, 8, 7, 6]
        (write (simSys 4) "/var/run/file7.dat" [9, 8, 7, 6] simShortRead).2).1 =
      some (Error.errorf "short read: 3") :=
  ⟨(short_transfer_is_error (simSys 4) "/var/run/file7.dat" [9, 8, 7, 6] [] [] simShortWrite
      _ _ 3 2).1 rfl rfl (by decide),
   (short_transfer_is_error (simSys 4) "/var/run/file7.dat" [] [9, 8, 7, 6] [9, 8, 7, 0]
      (write (simSys 4) "/var/run/file7.dat" [9, 8, 7, 6] simShortRead).2
      _ _ 4 3).2 rfl rfl (by decide)⟩

/-- A failing measurement still yields the two gauges, both 0. -/
theorem Collect_emits_two_gauges_witness :
    (Collect (simSys 4) probe0 [] simShortRead).1 =
      some [⟨rwDesc, ValueType.GaugeValue, 0, ["read"]⟩,
        ⟨rwDesc, ValueType.GaugeValue, 0, ["write"]⟩] := by
  have h := Collect_emits_two_gauges (simSys 4) probe0 [] simShortRead
  have hz := h.2.1 (by decide)
  rw [h.1, hz.1, hz.2]
  rfl

/-- With a close that reports an error, `write` returns that error and the
handle is closed all the same; `read` leaves its handle closed too. -/
theorem helpers_close_handle_witness :
    (write (simSys 4) "/var/run/file7.dat" [9, 8, 7, 6] simCloseFails).2.isOpen 3 = false ∧
    (write (simSys 4) "/var/run/file7.dat" [9, 8, 7, 6] simCloseFails).1 =
      some (Error.sys "input/output error") ∧
    (read (simSys 4) "/var/run/file7.dat" [9, 8, 7, 6]
      (write (simSys 4) "/var/run/file7.dat" [9, 8, 7, 6] sim0).2).2.isOpen 4 = false :=
  have hw := (helpers_close_handle (simSys 4) (fun fd s => s.isOpen fd = false) simClose_closes
    "/var/run/file7.dat" [9, 8, 7, 6] [] simCloseFails _ 3).1 rfl
  have hr := (helpers_close_handle (simSys 4) (fun fd s => s.isOpen fd = false) simClose_closes
    "/var/run/file7.dat" [] [9, 8, 7, 6]
    (write (simSys 4) "/var/run/file7.dat" [9, 8, 7, 6] sim0).2 _ 4).2 rfl
  ⟨hw.1, (hw.2 _ rfl).trans rfl, hr⟩

/-- In the simulated system a removal does not bring a file into being. -/
theorem simRemove_keeps_absent (name : String) (s : SimState)
    (h : s.fileExists name = false) : (simRemove name s).2.fileExists name = false := by
  unfold simRemove
  cases hr : s.removeErr with
  | some e => simpa using h
  | none => simp [h]

/-- In the healthy run the removal succeeds and the temp file is gone. -/
theorem measure_removes_temp_file_witness :
    (measure (simSys 4) probe0 sim0).2.fileExists (tempFile probe0 7) = false :=
  (measure_removes_temp_file (simSys 4) (fun name s => s.fileExists name = false)
    simRemove_absent simRemove_keeps_absent probe0 sim0 _ 7 rfl).2.2 (Or.inl (by decide))

end Dioprobe
